import Mathlib

/-!
Shallow embedding of the polymarket-kalshi-arbitrage-bot core, translated
from the Rust sources (`src/event.rs`, `src/bot.rs`, `src/trade_executor.rs`,
`src/position_tracker.rs`, `src/gabagool_executor.rs`, `src/main.rs`).

Modelling conventions:
- `f64` prices, liquidity, quantities and costs are embedded as `ℚ`
  (the code's arithmetic is plain field arithmetic on these values);
- `chrono::DateTime<Utc>` timestamps are embedded as `ℤ` (seconds),
  `chrono::Duration::hours h` as `3600 * h` and
  `chrono::Duration::minutes m` as `60 * m`;
- `Utc::now()` is passed in explicitly as a `now : ℤ` argument;
- `HashMap<String, _>` is embedded as an association list
  `List (String × _)` whose keys are kept unique by the insert/update
  operations, matching the map interface actually used by the code;
- async functions are pure in the fragments modelled here: the network
  results they await (`place_order`, `fetch_prices`) are passed in as
  explicit `Except`/value arguments, and the venue calls a function
  issues are recorded in an explicit operation trace.

The modules `arbitrage_detector.rs`, `event_matcher.rs`,
`gabagool_detector.rs` and `settlement_checker.rs` are referenced by the
crate but their files are not among the sources; where a property depends
on them the corresponding definition is modelled from the specification
and carries a doc comment saying so.
-/

namespace ArbBot

/-- `MarketPrices` from `src/event.rs` (lines 105-110): yes price, no price
and liquidity, all `f64` in the source, embedded as `ℚ`. -/
structure MarketPrices where
  yes : ℚ
  no : ℚ
  liquidity : ℚ
deriving Repr, DecidableEq

/-- `MarketPrices::validate` from `src/event.rs`: flags quotes whose
`yes + no` deviates from 1 by at least the 0.01 tolerance. -/
def MarketPrices.validate (p : MarketPrices) : Bool :=
  |p.yes + p.no - 1| < 0.01

/-- `ArbitrageOpportunity` as used by `bot.rs`, `trade_executor.rs` and
`main.rs`: a strategy label, one action per venue — (action type, outcome
side, execution price) — plus net profit and ROI percent. -/
structure ArbitrageOpportunity where
  strategy : String
  polymarket_action : String × String × ℚ
  kalshi_action : String × String × ℚ
  net_profit : ℚ
  roi_percent : ℚ
deriving Repr, DecidableEq

/-- Modelled from the spec: `ArbitrageDetector::check_arbitrage` lives in
`arbitrage_detector.rs`, which is referenced by `bot.rs` but is not among
the source files. Following §4.3: a combination qualifies when its total
cost is `< 1 - threshold`; net profit per unit is `1 - (leg_A + leg_B)`;
ROI is net profit over total cost times 100; when both combinations
qualify the one with the larger net profit is chosen; otherwise the sole
qualifying one; `none` when neither qualifies. Combination 1 buys YES on
Polymarket and NO on Kalshi; combination 2 is the symmetric one. -/
def check_arbitrage (threshold : ℚ) (a b : MarketPrices) :
    Option ArbitrageOpportunity :=
  let cost1 := a.yes + b.no
  let cost2 := a.no + b.yes
  let profit1 := 1 - cost1
  let profit2 := 1 - cost2
  let opp1 : ArbitrageOpportunity :=
    { strategy := "Buy YES on Polymarket, NO on Kalshi"
      polymarket_action := ("buy", "YES", a.yes)
      kalshi_action := ("buy", "NO", b.no)
      net_profit := profit1
      roi_percent := profit1 / cost1 * 100 }
  let opp2 : ArbitrageOpportunity :=
    { strategy := "Buy NO on Polymarket, YES on Kalshi"
      polymarket_action := ("buy", "NO", a.no)
      kalshi_action := ("buy", "YES", b.yes)
      net_profit := profit2
      roi_percent := profit2 / cost2 * 100 }
  if cost1 < 1 - threshold ∧ cost2 < 1 - threshold then
    if profit2 ≤ profit1 then some opp1 else some opp2
  else if cost1 < 1 - threshold then some opp1
  else if cost2 < 1 - threshold then some opp2
  else none

/-- The execution price carried by combination 1 sums to `a.yes + b.no`,
and by combination 2 to `a.no + b.yes`; this lemma just evaluates the
branch structure of `check_arbitrage`. -/
lemma check_arbitrage_cases (threshold : ℚ) (a b : MarketPrices)
    (o : ArbitrageOpportunity) (h : check_arbitrage threshold a b = some o) :
    (a.yes + b.no < 1 - threshold ∧
      o.net_profit = 1 - (a.yes + b.no) ∧
      o.polymarket_action.2.2 = a.yes ∧ o.kalshi_action.2.2 = b.no) ∨
    (a.no + b.yes < 1 - threshold ∧
      o.net_profit = 1 - (a.no + b.yes) ∧
      o.polymarket_action.2.2 = a.no ∧ o.kalshi_action.2.2 = b.yes) := by
  unfold check_arbitrage at h
  simp only at h
  split_ifs at h with h1 h2 h3 h4
  · left; cases h; exact ⟨h1.1, rfl, rfl, rfl⟩
  · right; cases h; exact ⟨h1.2, rfl, rfl, rfl⟩
  · left; cases h; exact ⟨h3, rfl, rfl, rfl⟩
  · right; cases h; exact ⟨h4, rfl, rfl, rfl⟩

/-- C1: for every pair of quotes and every (nonnegative) minimum-profit
threshold, `check_arbitrage` returns `some` iff
`min (yesA + noB) (noA + yesB) < 1 - threshold`; when it returns `some`
the net profit equals `1 - (leg_A_price + leg_B_price)` for the chosen
combination, the larger-profit combination is chosen when both qualify,
and the net profit is strictly positive. -/
theorem C1_check_arbitrage_contract (threshold : ℚ) (a b : MarketPrices)
    (hth : 0 ≤ threshold) :
    ((check_arbitrage threshold a b).isSome ↔
      min (a.yes + b.no) (a.no + b.yes) < 1 - threshold) ∧
    (∀ o, check_arbitrage threshold a b = some o →
      o.net_profit =
        1 - (o.polymarket_action.2.2 + o.kalshi_action.2.2) ∧
      (a.yes + b.no < 1 - threshold → a.no + b.yes < 1 - threshold →
        o.net_profit = max (1 - (a.yes + b.no)) (1 - (a.no + b.yes))) ∧
      0 < o.net_profit) := by
  constructor
  · unfold check_arbitrage
    simp only
    split_ifs with h1 h2 h3 h4
    · simp only [Option.isSome_some, true_iff, min_lt_iff]
      exact Or.inl h1.1
    · simp only [Option.isSome_some, true_iff, min_lt_iff]
      exact Or.inl h1.1
    · simp only [Option.isSome_some, true_iff, min_lt_iff]
      exact Or.inl h3
    · simp only [Option.isSome_some, true_iff, min_lt_iff]
      exact Or.inr h4
    · simp only [Option.isSome_none, Bool.false_eq_true, false_iff, not_lt,
        le_min_iff]
      exact ⟨le_of_not_lt h3, le_of_not_lt h4⟩
  · intro o ho
    have hmax : a.yes + b.no < 1 - threshold → a.no + b.yes < 1 - threshold →
        o.net_profit = max (1 - (a.yes + b.no)) (1 - (a.no + b.yes)) := by
      -- in the both-qualify branch the code keeps combination 1 exactly
      -- when its profit is the larger one
      intro hq1 hq2
      unfold check_arbitrage at ho
      simp only at ho
      rw [if_pos ⟨hq1, hq2⟩] at ho
      split_ifs at ho with hcmp
      · cases ho
        rw [max_eq_left hcmp]
      · cases ho
        rw [max_eq_right (le_of_not_le hcmp)]
    rcases check_arbitrage_cases threshold a b o ho with
      ⟨hq, hp, hpm, hk⟩ | ⟨hq, hp, hpm, hk⟩
    · exact ⟨by rw [hpm, hk]; exact hp, hmax, by rw [hp]; linarith⟩
    · exact ⟨by rw [hpm, hk]; exact hp, hmax, by rw [hp]; linarith⟩

/-- Witness for C1 at the spec's §8 scenario: quotes
(yesA = 0.40, noA = 0.60) and (yesB = 0.45, noB = 0.55) with
threshold 0.02; combination 1 costs 0.95 and the detector fires. -/
theorem C1_check_arbitrage_contract_witness :
    (0 : ℚ) ≤ 0.02 ∧
    (((check_arbitrage 0.02 ⟨0.40, 0.60, 500⟩ ⟨0.45, 0.55, 500⟩).isSome ↔
      min ((0.40 : ℚ) + 0.55) ((0.60 : ℚ) + 0.45) < 1 - 0.02) ∧
    (∀ o, check_arbitrage 0.02 ⟨0.40, 0.60, 500⟩ ⟨0.45, 0.55, 500⟩ = some o →
      o.net_profit =
        1 - (o.polymarket_action.2.2 + o.kalshi_action.2.2) ∧
      ((0.40 : ℚ) + 0.55 < 1 - 0.02 → (0.60 : ℚ) + 0.45 < 1 - 0.02 →
        o.net_profit = max (1 - ((0.40 : ℚ) + 0.55)) (1 - ((0.60 : ℚ) + 0.45))) ∧
      0 < o.net_profit)) :=
  ⟨by norm_num,
   C1_check_arbitrage_contract 0.02 ⟨0.40, 0.60, 500⟩ ⟨0.45, 0.55, 500⟩
     (by norm_num)⟩

/-- `Event` from `src/event.rs` (lines 4-14); `chrono` timestamps are
embedded as `ℤ` seconds. -/
structure Event where
  platform : String
  event_id : String
  title : String
  description : String
  resolution_date : Option ℤ
  category : Option String
  tags : List String
  slug : Option String
deriving Repr, DecidableEq

/-- `TradeResult` from `src/trade_executor.rs` (lines 10-16). -/
structure TradeResult where
  success : Bool
  polymarket_order_id : Option String
  kalshi_order_id : Option String
  error : Option String
deriving Repr, DecidableEq

/-- A call issued by the executor against a venue client: either an order
placement (`place_order`) or an order cancellation (`cancel_order`). The
executor functions below return the list of calls they issue, so that the
absence of any automatic unwind is a provable property of the trace. -/
inductive VenueOp where
  | placeOrder (venue eventId outcome : String) (amount price : ℚ)
  | cancelOrder (venue orderId : String)
deriving Repr, DecidableEq

/-- Whether a venue call is a cancellation. -/
def VenueOp.isCancel : VenueOp → Bool
  | .cancelOrder _ _ => true
  | .placeOrder _ _ _ _ _ => false

/-- `TradeExecutor::execute_polymarket_trade` (`src/trade_executor.rs` lines
138-170): issues `PolymarketClient::place_order` for the action's outcome at
the action's limit price — the network outcome of that call is passed in as
`placed` — propagating an error and otherwise returning the placed order id
wrapped in `Some`. The venue call issued is returned alongside. -/
def execute_polymarket_trade (event : Event) (action : String × String × ℚ)
    (amount : ℚ) (placed : Except String String) :
    Except String (Option String) × List VenueOp :=
  (match placed with
   | .error e => .error e
   | .ok order_id => .ok (some order_id),
   [VenueOp.placeOrder "polymarket" event.event_id action.2.1 amount
      action.2.2])

/-- `TradeExecutor::execute_kalshi_trade` (`src/trade_executor.rs` lines
172-204): same shape as the Polymarket leg, against the Kalshi client. -/
def execute_kalshi_trade (event : Event) (action : String × String × ℚ)
    (amount : ℚ) (placed : Except String String) :
    Except String (Option String) × List VenueOp :=
  (match placed with
   | .error e => .error e
   | .ok order_id => .ok (some order_id),
   [VenueOp.placeOrder "kalshi" event.event_id action.2.1 amount action.2.2])

/-- `TradeExecutor::execute_arbitrage` (`src/trade_executor.rs` lines
38-136): issues both venue legs concurrently (`tokio::join!` of the two leg
helpers, whose `place_order` outcomes are passed in as `pm_placed` /
`kalshi_placed`) and combines the leg results into a `TradeResult`. On full
success both order ids are reported and `success = true` (on that path the
source also appends one `Position` per leg to the tracker when one is
configured); otherwise `success = false`, each surviving leg's order id is
kept via `.ok().flatten()`, and the error collects "Polymarket: e" /
"Kalshi: e" for each failing leg, joined by "; ". The venue calls issued
are returned alongside; the source issues no cancellation on any path. -/
def execute_arbitrage (opportunity : ArbitrageOpportunity)
    (pm_event kalshi_event : Event) (amount : ℚ)
    (pm_placed kalshi_placed : Except String String) :
    TradeResult × List VenueOp :=
  let pmLeg := execute_polymarket_trade pm_event opportunity.polymarket_action
    amount pm_placed
  let kalshiLeg := execute_kalshi_trade kalshi_event opportunity.kalshi_action
    amount kalshi_placed
  let pm_result := pmLeg.1
  let kalshi_result := kalshiLeg.1
  let ops := pmLeg.2 ++ kalshiLeg.2
  let pm_success := pm_result.isOk
  let kalshi_success := kalshi_result.isOk
  if pm_success && kalshi_success then
    ({ success := true
       polymarket_order_id := pm_result.toOption.join
       kalshi_order_id := kalshi_result.toOption.join
       error := none }, ops)
  else
    let errors :=
      (match pm_result with
       | .error e => ["Polymarket: " ++ e]
       | .ok _ => []) ++
      (match kalshi_result with
       | .error e => ["Kalshi: " ++ e]
       | .ok _ => [])
    ({ success := false
       polymarket_order_id := pm_result.toOption.join
       kalshi_order_id := kalshi_result.toOption.join
       error := some (String.intercalate "; " errors) }, ops)

/-- C2: `execute_arbitrage` reports `success = true` iff both venue legs
succeed; when exactly one leg succeeds the result has `success = false`,
the surviving leg's order id populated, the other venue's order id absent,
and an error naming the failing leg; and no cancellation (automatic
unwind) is ever issued. -/
theorem C2_execute_arbitrage_legs (opportunity : ArbitrageOpportunity)
    (pm_event kalshi_event : Event) (amount : ℚ)
    (pm_placed kalshi_placed : Except String String) :
    ((execute_arbitrage opportunity pm_event kalshi_event amount pm_placed
        kalshi_placed).1.success = true ↔
      pm_placed.isOk = true ∧ kalshi_placed.isOk = true) ∧
    (∀ pm_id e, pm_placed = .ok pm_id → kalshi_placed = .error e →
      (execute_arbitrage opportunity pm_event kalshi_event amount pm_placed
        kalshi_placed).1.success = false ∧
      (execute_arbitrage opportunity pm_event kalshi_event amount pm_placed
        kalshi_placed).1.polymarket_order_id = some pm_id ∧
      (execute_arbitrage opportunity pm_event kalshi_event amount pm_placed
        kalshi_placed).1.kalshi_order_id = none ∧
      (execute_arbitrage opportunity pm_event kalshi_event amount pm_placed
        kalshi_placed).1.error = some ("Kalshi: " ++ e)) ∧
    (∀ kalshi_id e, pm_placed = .error e → kalshi_placed = .ok kalshi_id →
      (execute_arbitrage opportunity pm_event kalshi_event amount pm_placed
        kalshi_placed).1.success = false ∧
      (execute_arbitrage opportunity pm_event kalshi_event amount pm_placed
        kalshi_placed).1.kalshi_order_id = some kalshi_id ∧
      (execute_arbitrage opportunity pm_event kalshi_event amount pm_placed
        kalshi_placed).1.polymarket_order_id = none ∧
      (execute_arbitrage opportunity pm_event kalshi_event amount pm_placed
        kalshi_placed).1.error = some ("Polymarket: " ++ e)) ∧
    (∀ op ∈ (execute_arbitrage opportunity pm_event kalshi_event amount
        pm_placed kalshi_placed).2, op.isCancel = false) := by
  cases pm_placed with
  | error e =>
    cases kalshi_placed with
    | error e2 =>
      refine ⟨by simp [execute_arbitrage, execute_polymarket_trade,
        execute_kalshi_trade, Except.isOk, Except.toBool], ?_, ?_, ?_⟩
      · intro pm_id e3 h; cases h
      · intro kalshi_id e3 h1 h2; cases h2
      · intro op hop
        simp [execute_arbitrage, execute_polymarket_trade,
          execute_kalshi_trade, Except.toBool] at hop
        rcases hop with rfl | rfl <;> rfl
    | ok kid =>
      refine ⟨by simp [execute_arbitrage, execute_polymarket_trade,
        execute_kalshi_trade, Except.isOk, Except.toBool], ?_, ?_, ?_⟩
      · intro pm_id e3 h; cases h
      · intro kalshi_id e3 h1 h2
        cases h1; cases h2
        refine ⟨rfl, rfl, rfl, rfl⟩
      · intro op hop
        simp [execute_arbitrage, execute_polymarket_trade,
          execute_kalshi_trade, Except.toBool] at hop
        rcases hop with rfl | rfl <;> rfl
  | ok pid =>
    cases kalshi_placed with
    | error e2 =>
      refine ⟨by simp [execute_arbitrage, execute_polymarket_trade,
        execute_kalshi_trade, Except.isOk, Except.toBool], ?_, ?_, ?_⟩
      · intro pm_id e3 h1 h2
        cases h1; cases h2
        refine ⟨rfl, rfl, rfl, rfl⟩
      · intro kalshi_id e3 h; cases h
      · intro op hop
        simp [execute_arbitrage, execute_polymarket_trade,
          execute_kalshi_trade, Except.toBool] at hop
        rcases hop with rfl | rfl <;> rfl
    | ok kid =>
      refine ⟨by simp [execute_arbitrage, execute_polymarket_trade,
        execute_kalshi_trade, Except.isOk, Except.toBool], ?_, ?_, ?_⟩
      · intro pm_id e3 h1 h2; cases h2
      · intro kalshi_id e3 h1 h2; cases h1
      · intro op hop
        simp [execute_arbitrage, execute_polymarket_trade,
          execute_kalshi_trade, Except.toBool] at hop
        rcases hop with rfl | rfl <;> rfl

/-- Witness for C2: Polymarket leg succeeds with order id "pm-1", Kalshi
leg fails with "insufficient balance"; the result is a failed trade that
keeps the Polymarket order id and blames Kalshi. -/
theorem C2_execute_arbitrage_legs_witness :
    (execute_arbitrage
        ⟨"s", ("buy", "YES", 0.40), ("buy", "NO", 0.55), 0.05, 5⟩
        ⟨"polymarket", "pm-ev", "t", "d", none, none, [], none⟩
        ⟨"kalshi", "k-ev", "t", "d", none, none, [], none⟩ 100
        (.ok "pm-1") (.error "insufficient balance")).1.success = false ∧
    (execute_arbitrage
        ⟨"s", ("buy", "YES", 0.40), ("buy", "NO", 0.55), 0.05, 5⟩
        ⟨"polymarket", "pm-ev", "t", "d", none, none, [], none⟩
        ⟨"kalshi", "k-ev", "t", "d", none, none, [], none⟩ 100
        (.ok "pm-1")
        (.error "insufficient balance")).1.polymarket_order_id =
      some "pm-1" ∧
    (execute_arbitrage
        ⟨"s", ("buy", "YES", 0.40), ("buy", "NO", 0.55), 0.05, 5⟩
        ⟨"polymarket", "pm-ev", "t", "d", none, none, [], none⟩
        ⟨"kalshi", "k-ev", "t", "d", none, none, [], none⟩ 100
        (.ok "pm-1") (.error "insufficient balance")).1.kalshi_order_id =
      none ∧
    (execute_arbitrage
        ⟨"s", ("buy", "YES", 0.40), ("buy", "NO", 0.55), 0.05, 5⟩
        ⟨"polymarket", "pm-ev", "t", "d", none, none, [], none⟩
        ⟨"kalshi", "k-ev", "t", "d", none, none, [], none⟩ 100
        (.ok "pm-1") (.error "insufficient balance")).1.error =
      some ("Kalshi: " ++ "insufficient balance") :=
  (C2_execute_arbitrage_legs
    ⟨"s", ("buy", "YES", 0.40), ("buy", "NO", 0.55), 0.05, 5⟩
    ⟨"polymarket", "pm-ev", "t", "d", none, none, [], none⟩
    ⟨"kalshi", "k-ev", "t", "d", none, none, [], none⟩ 100
    (.ok "pm-1") (.error "insufficient balance")).2.1
    "pm-1" "insufficient balance" rfl rfl

/-- `HashMap::get` on the association-list embedding of
`HashMap<String, α>`. -/
def mapGet {α : Type} (l : List (String × α)) (k : String) : Option α :=
  match l with
  | [] => none
  | kv :: rest => if kv.1 = k then some kv.2 else mapGet rest k

/-- Rewriting the value stored under one key (the effect of mutating
through `HashMap::get_mut` / `HashMap::entry`). -/
def mapUpdate {α : Type} (l : List (String × α)) (k : String) (v : α) :
    List (String × α) :=
  l.map fun kv => if kv.1 = k then (kv.1, v) else kv

/-- `HashMap::insert`: replace the entry when the key is present, append
otherwise. -/
def mapInsert {α : Type} (l : List (String × α)) (k : String) (v : α) :
    List (String × α) :=
  if (mapGet l k).isSome then mapUpdate l k v else l ++ [(k, v)]

/-- One step of `mapGet`. -/
lemma mapGet_cons {α : Type} (kv : String × α) (rest : List (String × α))
    (k : String) :
    mapGet (kv :: rest) k = if kv.1 = k then some kv.2 else mapGet rest k :=
  rfl

/-- One step of `mapUpdate`. -/
lemma mapUpdate_cons {α : Type} (kv : String × α)
    (rest : List (String × α)) (k : String) (v : α) :
    mapUpdate (kv :: rest) k v =
      (if kv.1 = k then (kv.1, v) else kv) :: mapUpdate rest k v :=
  rfl

/-- Reading back the rewritten key returns the new value whenever the key
was present. -/
lemma mapGet_mapUpdate_self {α : Type} (l : List (String × α)) (k : String)
    (v w : α) (h : mapGet l k = some w) :
    mapGet (mapUpdate l k v) k = some v := by
  induction l with
  | nil => simp [mapGet] at h
  | cons kv rest ih =>
    rw [mapUpdate_cons]
    by_cases hk : kv.1 = k
    · rw [if_pos hk, mapGet_cons, if_pos hk]
    · rw [mapGet_cons, if_neg hk] at h
      rw [if_neg hk, mapGet_cons, if_neg hk]
      exact ih h

/-- Reading any other key is unchanged by the rewrite. -/
lemma mapGet_mapUpdate_ne {α : Type} (l : List (String × α)) (k k2 : String)
    (v : α) (hk : k2 ≠ k) :
    mapGet (mapUpdate l k v) k2 = mapGet l k2 := by
  induction l with
  | nil => simp [mapGet, mapUpdate]
  | cons kv rest ih =>
    rw [mapUpdate_cons]
    by_cases hh : kv.1 = k
    · have h2 : kv.1 ≠ k2 := fun he => hk (he.symm.trans hh)
      rw [if_pos hh, mapGet_cons, mapGet_cons, if_neg h2, if_neg h2]
      exact ih
    · rw [if_neg hh, mapGet_cons, mapGet_cons]
      by_cases hkk : kv.1 = k2
      · rw [if_pos hkk, if_pos hkk]
      · rw [if_neg hkk, if_neg hkk]
        exact ih

/-- The rewrite never adds or removes entries. -/
lemma mapUpdate_length {α : Type} (l : List (String × α)) (k : String)
    (v : α) : (mapUpdate l k v).length = l.length :=
  List.length_map _ _

/-- `PositionStatus` from `src/position_tracker.rs` (lines 7-13). -/
inductive PositionStatus where
  | Open
  | Settled
  | Won
  | Lost
deriving Repr, DecidableEq

/-- `Position` from `src/position_tracker.rs` (lines 15-31); `f64` fields
as `ℚ`, timestamps as `ℤ` seconds. -/
structure Position where
  id : String
  platform : String
  event_id : String
  event_title : String
  outcome : String
  amount : ℚ
  cost : ℚ
  price : ℚ
  order_id : Option String
  status : PositionStatus
  created_at : ℤ
  settled_at : Option ℤ
  payout : Option ℚ
  profit : Option ℚ
deriving Repr, DecidableEq

/-- `Position::calculate_profit_if_won` (`src/position_tracker.rs` lines
61-65): payout is `amount * 1.0`, profit is payout minus cost. -/
def Position.calculate_profit_if_won (p : Position) : ℚ :=
  p.amount * 1 - p.cost

/-- `Position::calculate_profit_if_lost` (lines 67-70): the whole cost is
lost. -/
def Position.calculate_profit_if_lost (p : Position) : ℚ :=
  -p.cost

/-- `PositionTracker` (`src/position_tracker.rs` lines 73-75): a
`HashMap<String, Position>` keyed by position id. -/
structure PositionTracker where
  positions : List (String × Position)
deriving Repr, DecidableEq

/-- `PositionTracker::add_position` (lines 84-92): `HashMap::insert` of the
position under its own id. -/
def PositionTracker.add_position (t : PositionTracker) (position : Position) :
    PositionTracker :=
  ⟨mapInsert t.positions position.id position⟩

/-- `PositionTracker::update_position_settlement` (`src/position_tracker.rs`
lines 112-145): `get_mut` on the position id; when present, sets the status
to Won or Lost according to `won`, the settlement time to now, the payout
to the given payout, computes the profit with the won/lost formula, stores
it and returns it; when absent, returns `None` and leaves the map alone. -/
def PositionTracker.update_position_settlement (t : PositionTracker)
    (position_id : String) (won : Bool) (payout : Option ℚ) (now : ℤ) :
    PositionTracker × Option ℚ :=
  match mapGet t.positions position_id with
  | some position =>
    let profit :=
      if won then position.calculate_profit_if_won
      else position.calculate_profit_if_lost
    let updated : Position :=
      { position with
          status := if won then PositionStatus.Won else PositionStatus.Lost
          settled_at := some now
          payout := payout
          profit := some profit }
    (⟨mapUpdate t.positions position_id updated⟩, some profit)
  | none => (t, none)

/-- C3: for every position id present in the ledger,
`update_position_settlement` sets that position's status to Won when
`won = true` and to Lost when `won = false`, sets its profit to
`amount * 1 - cost` when won and to `-cost` when lost, and returns that
profit. -/
theorem C3_update_position_settlement_profit (t : PositionTracker)
    (pid : String) (won : Bool) (payout : Option ℚ) (now : ℤ) (p : Position)
    (hp : mapGet t.positions pid = some p) :
    ∃ q, mapGet
        (t.update_position_settlement pid won payout now).1.positions pid =
        some q ∧
      q.status = (if won then PositionStatus.Won else PositionStatus.Lost) ∧
      q.profit = some (if won then p.amount * 1 - p.cost else -p.cost) ∧
      (t.update_position_settlement pid won payout now).2 =
        some (if won then p.amount * 1 - p.cost else -p.cost) := by
  unfold PositionTracker.update_position_settlement
  rw [hp]
  simp only
  refine ⟨_, mapGet_mapUpdate_self t.positions pid _ p hp, rfl, ?_, ?_⟩
  · cases won <;> rfl
  · cases won <;> rfl

/-- A sample open position used by the settlement witnesses. -/
def samplePosition1 : Position :=
  ⟨"p1", "polymarket", "ev", "t", "YES", 40, 30, 0.75, none,
    PositionStatus.Open, 0, none, none, none⟩

/-- A second sample open position used by the settlement witnesses. -/
def samplePosition2 : Position :=
  ⟨"p2", "kalshi", "ev2", "t2", "NO", 10, 6, 0.6, some "o2",
    PositionStatus.Open, 0, none, none, none⟩

/-- A one-entry sample ledger. -/
def sampleTracker1 : PositionTracker :=
  ⟨[("p1", samplePosition1)]⟩

/-- A two-entry sample ledger. -/
def sampleTracker2 : PositionTracker :=
  ⟨[("p1", samplePosition1), ("p2", samplePosition2)]⟩

/-- Witness for C3: a one-entry ledger holding an open 40-unit position of
cost 30 is settled as won; the stored and returned profit is 10. -/
theorem C3_update_position_settlement_profit_witness :
    mapGet sampleTracker1.positions "p1" = some samplePosition1 ∧
    ∃ q, mapGet
        (sampleTracker1.update_position_settlement "p1" true (some 40)
          100).1.positions "p1" = some q ∧
      q.status = (if true then PositionStatus.Won else PositionStatus.Lost) ∧
      q.profit = some (if true then samplePosition1.amount * 1 -
        samplePosition1.cost else -samplePosition1.cost) ∧
      (sampleTracker1.update_position_settlement "p1" true (some 40)
        100).2 = some (if true then samplePosition1.amount * 1 -
        samplePosition1.cost else -samplePosition1.cost) :=
  ⟨rfl, C3_update_position_settlement_profit sampleTracker1 "p1" true
    (some 40) 100 samplePosition1 rfl⟩

/-- C9: settling an existing position rewrites only that position's
status, settlement time, payout and profit; its identifying and economic
fields are unchanged, every other position in the ledger is unchanged, and
no position is removed (the ledger keeps its size). -/
theorem C9_update_position_settlement_frame (t : PositionTracker)
    (pid : String) (won : Bool) (payout : Option ℚ) (now : ℤ) (p : Position)
    (hp : mapGet t.positions pid = some p) :
    (∃ q, mapGet
        (t.update_position_settlement pid won payout now).1.positions pid =
        some q ∧
      q.id = p.id ∧ q.platform = p.platform ∧ q.event_id = p.event_id ∧
      q.event_title = p.event_title ∧ q.outcome = p.outcome ∧
      q.amount = p.amount ∧ q.cost = p.cost ∧ q.price = p.price ∧
      q.order_id = p.order_id ∧ q.created_at = p.created_at ∧
      q.status = (if won then PositionStatus.Won else PositionStatus.Lost) ∧
      q.settled_at = some now ∧ q.payout = payout) ∧
    (∀ k, k ≠ pid →
      mapGet (t.update_position_settlement pid won payout now).1.positions
        k = mapGet t.positions k) ∧
    (t.update_position_settlement pid won payout now).1.positions.length =
      t.positions.length := by
  unfold PositionTracker.update_position_settlement
  rw [hp]
  simp only
  refine ⟨⟨_, mapGet_mapUpdate_self t.positions pid _ p hp,
    rfl, rfl, rfl, rfl, rfl, rfl, rfl, rfl, rfl, rfl, rfl, rfl, rfl⟩,
    ?_, ?_⟩
  · intro k hk
    exact mapGet_mapUpdate_ne t.positions pid k _ hk
  · exact mapUpdate_length t.positions pid _

/-- Witness for C9 on a two-entry ledger: settling "p1" as lost leaves
"p2" alone and keeps the ledger size. -/
theorem C9_update_position_settlement_frame_witness :
    mapGet sampleTracker2.positions "p1" = some samplePosition1 ∧
    mapGet (sampleTracker2.update_position_settlement "p1" false none
      50).1.positions "p2" = mapGet sampleTracker2.positions "p2" ∧
    (sampleTracker2.update_position_settlement "p1" false none
      50).1.positions.length = sampleTracker2.positions.length :=
  ⟨rfl,
   (C9_update_position_settlement_frame sampleTracker2 "p1" false none 50
     samplePosition1 rfl).2.1 "p2" (by decide),
   (C9_update_position_settlement_frame sampleTracker2 "p1" false none 50
     samplePosition1 rfl).2.2⟩

/-- `MarketFilters` from `src/bot.rs` (lines 9-13). -/
structure MarketFilters where
  categories : List String
  max_hours_until_resolution : ℤ
  min_liquidity : ℚ
deriving Repr, DecidableEq

/-- `chrono::Duration::hours`, in seconds. -/
def Duration.hours (h : ℤ) : ℤ := 3600 * h

/-- `chrono::Duration::minutes`, in seconds. -/
def Duration.minutes (m : ℤ) : ℤ := 60 * m

/-- `ShortTermArbitrageBot` (`src/bot.rs` lines 25-44): the two detectors
are determined by their thresholds, so the state is the filter
configuration plus the two configured thresholds. -/
structure ShortTermArbitrageBot where
  filters : MarketFilters
  similarity_threshold : ℚ
  min_profit_threshold : ℚ
deriving Repr, DecidableEq

/-- `ShortTermArbitrageBot::is_within_timeframe` (`src/bot.rs` lines
46-57): an event time passes iff it is present and `now` is between 5
minutes and `max_hours_until_resolution` hours before it. -/
def ShortTermArbitrageBot.is_within_timeframe (bot : ShortTermArbitrageBot)
    (now : ℤ) (resolution_date : Option ℤ) : Bool :=
  match resolution_date with
  | some date =>
    let time_until_resolution := date - now
    let max_time := Duration.hours bot.filters.max_hours_until_resolution
    let min_time := Duration.minutes 5
    decide (min_time ≤ time_until_resolution) &&
      decide (time_until_resolution ≤ max_time)
  | none => false

/-- `ShortTermArbitrageBot::matches_category` (`src/bot.rs` lines 59-102):
empty filter set accepts everything; otherwise an explicit category
substring match against the configured categories, falling back to a
keyword match over title and description for the "crypto" and "sports"
categories. -/
def ShortTermArbitrageBot.matches_category (bot : ShortTermArbitrageBot)
    (event : Event) : Bool :=
  if bot.filters.categories.isEmpty then
    true
  else
    let cat_hit :=
      match event.category with
      | some cat =>
        let cat_lower := cat.toLower
        bot.filters.categories.any fun filter_cat =>
          cat_lower.containsSubstr filter_cat.toLower.toSubstring
      | none => false
    if cat_hit then
      true
    else
      let title_lower := event.title.toLower
      let desc_lower := event.description.toLower
      let crypto_keywords : List String :=
        ["bitcoin", "btc", "ethereum", "eth", "crypto", "cryptocurrency",
         "price", "above", "below", "reach", "hit", "surpass"]
      let sports_keywords : List String :=
        ["game", "match", "team", "player", "score", "win", "lose",
         "nfl", "nba", "mlb", "soccer", "football", "basketball"]
      let has_crypto := bot.filters.categories.any (· == "crypto")
      let has_sports := bot.filters.categories.any (· == "sports")
      let keyword_hit := fun (kws : List String) =>
        kws.any fun kw =>
          title_lower.containsSubstr kw.toSubstring ||
            desc_lower.containsSubstr kw.toSubstring
      if has_crypto && keyword_hit crypto_keywords then
        true
      else if has_sports && keyword_hit sports_keywords then
        true
      else
        false

/-- `ShortTermArbitrageBot::filter_events` (`src/bot.rs` lines 104-112):
keep the events passing both the category check and the time-window
check. -/
def ShortTermArbitrageBot.filter_events (bot : ShortTermArbitrageBot)
    (now : ℤ) (events : List Event) : List Event :=
  events.filter fun event =>
    bot.matches_category event &&
      bot.is_within_timeframe now event.resolution_date

/-- C5: every event accepted by the filter carries a resolution timestamp
lying between 5 minutes and the configured maximum ahead of now, and every
event with no resolution timestamp is excluded. -/
theorem C5_filter_events_time_window (bot : ShortTermArbitrageBot)
    (now : ℤ) (events : List Event) (e : Event) :
    (e ∈ bot.filter_events now events →
      ∃ d, e.resolution_date = some d ∧
        Duration.minutes 5 ≤ d - now ∧
        d - now ≤ Duration.hours bot.filters.max_hours_until_resolution) ∧
    (e.resolution_date = none → e ∉ bot.filter_events now events) := by
  have key : e ∈ bot.filter_events now events →
      bot.is_within_timeframe now e.resolution_date = true := by
    intro h
    have := (List.mem_filter.mp h).2
    exact (Bool.and_eq_true _ _ |>.mp this).2
  constructor
  · intro h
    have hw := key h
    cases hd : e.resolution_date with
    | none =>
      rw [hd] at hw
      exact absurd hw (by simp [ShortTermArbitrageBot.is_within_timeframe])
    | some d =>
      rw [hd] at hw
      unfold ShortTermArbitrageBot.is_within_timeframe at hw
      simp only [Bool.and_eq_true, decide_eq_true_eq] at hw
      exact ⟨d, rfl, hw.1, hw.2⟩
  · intro hd h
    have hw := key h
    rw [hd] at hw
    exact absurd hw (by simp [ShortTermArbitrageBot.is_within_timeframe])

/-- A sample bot configuration with an empty category filter, a 1-hour
window and a liquidity floor of 200. -/
def sampleBot : ShortTermArbitrageBot :=
  ⟨⟨[], 1, 200⟩, 0.8, 0.02⟩

/-- A sample event resolving 900 seconds after time 0. -/
def sampleEventSoon : Event :=
  ⟨"polymarket", "ev-soon", "t", "d", some 900, none, [], none⟩

/-- A sample event with no resolution timestamp. -/
def sampleEventNoDate : Event :=
  ⟨"polymarket", "ev-nodate", "t", "d", none, none, [], none⟩

/-- Witness for C5: the 900-second event passes the filter and its
window is certified; the event without a timestamp is excluded. -/
theorem C5_filter_events_time_window_witness :
    (∃ d, sampleEventSoon.resolution_date = some d ∧
      Duration.minutes 5 ≤ d - 0 ∧
      d - 0 ≤ Duration.hours sampleBot.filters.max_hours_until_resolution) ∧
    sampleEventNoDate ∉ sampleBot.filter_events 0 [sampleEventNoDate] :=
  ⟨(C5_filter_events_time_window sampleBot 0 [sampleEventSoon]
      sampleEventSoon).1 (by decide),
   (C5_filter_events_time_window sampleBot 0 [sampleEventNoDate]
      sampleEventNoDate).2 rfl⟩

/-- The detection loop of `ShortTermArbitrageBot::scan_for_opportunities`
(`src/bot.rs` lines 157-171), applied to the collected per-matched-pair
price fetch results (one entry per matched pair, built by lines 114-155:
the pair's two events plus the two venues' quotes): pairs whose either leg
has liquidity below the configured floor are skipped, the arbitrage
detector runs on the rest, and its hits are collected in order. -/
def ShortTermArbitrageBot.scan_for_opportunities
    (bot : ShortTermArbitrageBot)
    (price_results : List (Event × Event × MarketPrices × MarketPrices)) :
    List (Event × Event × ArbitrageOpportunity) :=
  price_results.filterMap fun r =>
    match r with
    | (pm_event, kalshi_event, pm_prices, kalshi_prices) =>
      if pm_prices.liquidity < bot.filters.min_liquidity ∨
          kalshi_prices.liquidity < bot.filters.min_liquidity then
        none
      else
        (check_arbitrage bot.min_profit_threshold pm_prices
            kalshi_prices).map
          fun opportunity => (pm_event, kalshi_event, opportunity)

/-- C4: the scan emits an opportunity for a matched pair iff that pair's
two fetched quotes both meet the minimum-liquidity floor and the
arbitrage detector fires on them. -/
theorem C4_scan_emits_iff (bot : ShortTermArbitrageBot)
    (price_results : List (Event × Event × MarketPrices × MarketPrices))
    (pm_event kalshi_event : Event) (opportunity : ArbitrageOpportunity) :
    (pm_event, kalshi_event, opportunity) ∈
      bot.scan_for_opportunities price_results ↔
    ∃ pm_prices kalshi_prices,
      (pm_event, kalshi_event, pm_prices, kalshi_prices) ∈ price_results ∧
      bot.filters.min_liquidity ≤ pm_prices.liquidity ∧
      bot.filters.min_liquidity ≤ kalshi_prices.liquidity ∧
      check_arbitrage bot.min_profit_threshold pm_prices kalshi_prices =
        some opportunity := by
  unfold ShortTermArbitrageBot.scan_for_opportunities
  rw [List.mem_filterMap]
  constructor
  · rintro ⟨⟨pe, ke, pp, kp⟩, hmem, hf⟩
    simp only at hf
    by_cases hliq : pp.liquidity < bot.filters.min_liquidity ∨
        kp.liquidity < bot.filters.min_liquidity
    · rw [if_pos hliq] at hf
      cases hf
    · rw [if_neg hliq] at hf
      push_neg at hliq
      rcases Option.map_eq_some.mp hf with ⟨o, hchk, ho⟩
      obtain ⟨rfl, rfl, rfl⟩ : pe = pm_event ∧ ke = kalshi_event ∧
          o = opportunity := by
        refine ⟨congrArg Prod.fst ho, ?_, ?_⟩
        · exact congrArg Prod.fst (congrArg Prod.snd ho)
        · exact congrArg Prod.snd (congrArg Prod.snd ho)
      exact ⟨pp, kp, hmem, hliq.1, hliq.2, hchk⟩
  · rintro ⟨pp, kp, hmem, h1, h2, hchk⟩
    refine ⟨(pm_event, kalshi_event, pp, kp), hmem, ?_⟩
    simp only
    rw [if_neg (by push_neg; exact ⟨h1, h2⟩), hchk]
    rfl

/-- `GabagoolOpportunity` (declared in the absent `gabagool_detector.rs`):
fields as read by `gabagool_executor.rs` and `main.rs` and listed in §3 of
the spec — the event, the cheap side and its price, the total cost after
the proposed buy, net profit, ROI percent, the resulting pair cost, and
whether profit is already locked. -/
structure GabagoolOpportunity where
  event : Event
  cheap_side : String
  cheap_price : ℚ
  total_cost : ℚ
  net_profit : ℚ
  roi_percent : ℚ
  pair_cost_after : ℚ
  profit_locked : Bool
deriving Repr, DecidableEq

/-- `GabagoolPosition` from `src/gabagool_executor.rs` (lines 12-19). -/
structure GabagoolPosition where
  event_id : String
  yes_qty : ℚ
  yes_cost : ℚ
  no_qty : ℚ
  no_cost : ℚ
deriving Repr, DecidableEq

/-- `GabagoolExecutor::get_position_balance` (`src/gabagool_executor.rs`
lines 42-54): the stored (yes quantity, yes cost, no quantity, no cost)
for the event, or all zeros when the event has no entry. -/
def get_position_balance (positions : List (String × GabagoolPosition))
    (event_id : String) : ℚ × ℚ × ℚ × ℚ :=
  match mapGet positions event_id with
  | some pos => (pos.yes_qty, pos.yes_cost, pos.no_qty, pos.no_cost)
  | none => (0, 0, 0, 0)

/-- The position-balance mutation inside `GabagoolExecutor::execute_trade`
(`src/gabagool_executor.rs` lines 72-113): `shares = amount / cheap_price`;
the event's entry is created at all zeros on first trade
(`entry(..).or_insert_with`), then the bought shares are added to the
cheap side's quantity and the spent amount to that side's cost. -/
def gabagool_position_after (positions : List (String × GabagoolPosition))
    (opportunity : GabagoolOpportunity) (amount : ℚ) : GabagoolPosition :=
  let shares := amount / opportunity.cheap_price
  let base :=
    match mapGet positions opportunity.event.event_id with
    | some pos => pos
    | none => ⟨opportunity.event.event_id, 0, 0, 0, 0⟩
  if opportunity.cheap_side = "YES" then
    { base with
        yes_qty := base.yes_qty + shares
        yes_cost := base.yes_cost + amount }
  else
    { base with
        no_qty := base.no_qty + shares
        no_cost := base.no_cost + amount }

/-- `GabagoolExecutor::execute_trade` (`src/gabagool_executor.rs` lines
57-154): place a single order for the cheap side (its network outcome is
passed in as `placed`); a placement error propagates (`?`) leaving the
position map untouched; otherwise the per-event position is updated
unconditionally — a missing order id is only logged as a warning — and the
call returns `Ok(true)`. (The source then also appends a `Position` to the
shared ledger when one is configured and logs the resulting pair cost;
neither affects the position map or the return value.) -/
def execute_trade (positions : List (String × GabagoolPosition))
    (opportunity : GabagoolOpportunity) (amount : ℚ)
    (placed : Except String (Option String)) :
    List (String × GabagoolPosition) × Except String Bool :=
  match placed with
  | .error e => (positions, .error e)
  | .ok _order_id =>
    (mapInsert positions opportunity.event.event_id
      (gabagool_position_after positions opportunity amount), .ok true)

/-- Appending a fresh key at the end is invisible to lookups of that
key's absence. -/
lemma mapGet_append_single {α : Type} (l : List (String × α)) (k : String)
    (v : α) (h : mapGet l k = none) : mapGet (l ++ [(k, v)]) k = some v := by
  induction l with
  | nil => simp [mapGet]
  | cons kv rest ih =>
    rw [mapGet_cons] at h
    by_cases hk : kv.1 = k
    · rw [if_pos hk] at h; cases h
    · rw [if_neg hk] at h
      rw [List.cons_append, mapGet_cons, if_neg hk]
      exact ih h

/-- Appending a single entry does not change lookups of other keys. -/
lemma mapGet_append_single_ne {α : Type} (l : List (String × α))
    (k k2 : String) (v : α) (hk : k2 ≠ k) :
    mapGet (l ++ [(k, v)]) k2 = mapGet l k2 := by
  induction l with
  | nil =>
    rw [List.nil_append, mapGet_cons, if_neg (fun h => hk h.symm)]
  | cons kv rest ih =>
    rw [List.cons_append, mapGet_cons, mapGet_cons]
    by_cases hkk : kv.1 = k2
    · rw [if_pos hkk, if_pos hkk]
    · rw [if_neg hkk, if_neg hkk]
      exact ih

/-- Reading back an inserted key returns the inserted value. -/
lemma mapGet_mapInsert_self {α : Type} (l : List (String × α)) (k : String)
    (v : α) : mapGet (mapInsert l k v) k = some v := by
  unfold mapInsert
  cases hg : mapGet l k with
  | some w =>
    simp only [Option.isSome_some, if_true]
    exact mapGet_mapUpdate_self l k v w hg
  | none =>
    simp only [Option.isSome_none, Bool.false_eq_true, if_false]
    exact mapGet_append_single l k v hg

/-- Inserting one key does not change lookups of other keys. -/
lemma mapGet_mapInsert_ne {α : Type} (l : List (String × α)) (k k2 : String)
    (v : α) (hk : k2 ≠ k) :
    mapGet (mapInsert l k v) k2 = mapGet l k2 := by
  unfold mapInsert
  by_cases hg : (mapGet l k).isSome
  · rw [if_pos hg]
    exact mapGet_mapUpdate_ne l k k2 v hk
  · rw [if_neg hg]
    exact mapGet_append_single_ne l k k2 v hk

/-- C7: whenever order placement returns without error — with or without
an order id — `execute_trade` returns `Ok(true)` and the event's position
gains `amount / cheap_price` on the cheap side's quantity and `amount` on
that side's cost, the other side staying as it was. -/
theorem C7_execute_trade_updates_position
    (positions : List (String × GabagoolPosition))
    (opportunity : GabagoolOpportunity) (amount : ℚ)
    (order_id : Option String) :
    (execute_trade positions opportunity amount (.ok order_id)).2 =
      .ok true ∧
    (opportunity.cheap_side = "YES" →
      get_position_balance
          (execute_trade positions opportunity amount (.ok order_id)).1
          opportunity.event.event_id =
        ((get_position_balance positions opportunity.event.event_id).1 +
            amount / opportunity.cheap_price,
         (get_position_balance positions opportunity.event.event_id).2.1 +
            amount,
         (get_position_balance positions opportunity.event.event_id).2.2.1,
         (get_position_balance positions
            opportunity.event.event_id).2.2.2)) ∧
    (opportunity.cheap_side ≠ "YES" →
      get_position_balance
          (execute_trade positions opportunity amount (.ok order_id)).1
          opportunity.event.event_id =
        ((get_position_balance positions opportunity.event.event_id).1,
         (get_position_balance positions opportunity.event.event_id).2.1,
         (get_position_balance positions opportunity.event.event_id).2.2.1 +
            amount / opportunity.cheap_price,
         (get_position_balance positions opportunity.event.event_id).2.2.2 +
            amount)) := by
  refine ⟨rfl, ?_, ?_⟩
  · intro hside
    show get_position_balance
        (mapInsert positions opportunity.event.event_id
          (gabagool_position_after positions opportunity amount))
        opportunity.event.event_id = _
    unfold get_position_balance
    rw [mapGet_mapInsert_self]
    unfold gabagool_position_after
    simp only
    rw [if_pos hside]
    cases hg : mapGet positions opportunity.event.event_id with
    | some pos => rfl
    | none => rfl
  · intro hside
    show get_position_balance
        (mapInsert positions opportunity.event.event_id
          (gabagool_position_after positions opportunity amount))
        opportunity.event.event_id = _
    unfold get_position_balance
    rw [mapGet_mapInsert_self]
    unfold gabagool_position_after
    simp only
    rw [if_neg hside]
    cases hg : mapGet positions opportunity.event.event_id with
    | some pos => rfl
    | none => rfl

/-- A sample Gabagool opportunity buying the YES side. -/
def sampleGabagoolYes : GabagoolOpportunity :=
  ⟨⟨"polymarket", "ev-g", "t", "d", some 900, none, [], none⟩,
   "YES", 0.45, 0.95, 0.05, 5, 0.95, false⟩

/-- A sample Gabagool opportunity buying the NO side. -/
def sampleGabagoolNo : GabagoolOpportunity :=
  ⟨⟨"polymarket", "ev-g", "t", "d", some 900, none, [], none⟩,
   "NO", 0.48, 0.95, 0.05, 5, 0.95, false⟩

/-- Witness for C7, starting from the empty position map with no order id
returned: the YES buy books 100 / 0.45 shares and cost 100 on the YES
side, the NO buy the analogue on the NO side. -/
theorem C7_execute_trade_updates_position_witness :
    get_position_balance
        (execute_trade [] sampleGabagoolYes 100 (.ok none)).1
        sampleGabagoolYes.event.event_id =
      ((get_position_balance [] sampleGabagoolYes.event.event_id).1 +
          100 / sampleGabagoolYes.cheap_price,
       (get_position_balance [] sampleGabagoolYes.event.event_id).2.1 + 100,
       (get_position_balance [] sampleGabagoolYes.event.event_id).2.2.1,
       (get_position_balance [] sampleGabagoolYes.event.event_id).2.2.2) ∧
    get_position_balance
        (execute_trade [] sampleGabagoolNo 100 (.ok none)).1
        sampleGabagoolNo.event.event_id =
      ((get_position_balance [] sampleGabagoolNo.event.event_id).1,
       (get_position_balance [] sampleGabagoolNo.event.event_id).2.1,
       (get_position_balance [] sampleGabagoolNo.event.event_id).2.2.1 +
          100 / sampleGabagoolNo.cheap_price,
       (get_position_balance [] sampleGabagoolNo.event.event_id).2.2.2 +
          100) :=
  ⟨(C7_execute_trade_updates_position [] sampleGabagoolYes 100 none).2.1
     rfl,
   (C7_execute_trade_updates_position [] sampleGabagoolNo 100 none).2.2
     (by decide)⟩

/-- A straight-line run of the Gabagool executor: starting from the empty
position map (`GabagoolExecutor::new`, `src/gabagool_executor.rs` lines
28-34), execute each listed trade in turn, threading the position map.
Each entry is one `execute_trade` call: the opportunity, the amount, and
the venue's `place_order` outcome. -/
def run_gabagool_trades
    (trades :
      List (GabagoolOpportunity × ℚ × Except String (Option String))) :
    List (String × GabagoolPosition) :=
  trades.foldl
    (fun positions t => (execute_trade positions t.1 t.2.1 t.2.2).1) []

/-- `execute_trade` only ever touches its own event's entry. -/
lemma execute_trade_preserves_other
    (positions : List (String × GabagoolPosition))
    (opportunity : GabagoolOpportunity) (amount : ℚ)
    (placed : Except String (Option String)) (k : String)
    (hk : k ≠ opportunity.event.event_id) :
    mapGet (execute_trade positions opportunity amount placed).1 k =
      mapGet positions k := by
  cases placed with
  | error e => rfl
  | ok oid =>
    show mapGet (mapInsert positions opportunity.event.event_id
      (gabagool_position_after positions opportunity amount)) k = _
    exact mapGet_mapInsert_ne _ _ _ _ hk

/-- An event never traded keeps no entry across any straight-line run. -/
lemma run_gabagool_mapGet_none
    (trades :
      List (GabagoolOpportunity × ℚ × Except String (Option String)))
    (eid : String) (positions : List (String × GabagoolPosition))
    (h0 : mapGet positions eid = none)
    (h : ∀ t ∈ trades, t.1.event.event_id ≠ eid) :
    mapGet
      (trades.foldl
        (fun positions t => (execute_trade positions t.1 t.2.1 t.2.2).1)
        positions) eid = none := by
  induction trades generalizing positions with
  | nil => exact h0
  | cons t rest ih =>
    rw [List.foldl_cons]
    refine ih _ ?_ (fun t2 ht2 => h t2 (List.mem_cons_of_mem _ ht2))
    rw [execute_trade_preserves_other _ _ _ _ _
      (fun he => (h t (List.mem_cons_self _ _)) he.symm)]
    exact h0

/-- C10: for every event id never traded in a run of the Gabagool
executor, `get_position_balance` returns all zeros rather than failing or
returning an absent value. -/
theorem C10_get_position_balance_default
    (trades :
      List (GabagoolOpportunity × ℚ × Except String (Option String)))
    (eid : String) (h : ∀ t ∈ trades, t.1.event.event_id ≠ eid) :
    get_position_balance (run_gabagool_trades trades) eid =
      (0, 0, 0, 0) := by
  unfold get_position_balance run_gabagool_trades
  rw [run_gabagool_mapGet_none trades eid [] rfl h]

/-- Witness for C10: after one executed trade on a different event, the
untouched event id still reports the zero balance. -/
theorem C10_get_position_balance_default_witness :
    (∀ t ∈ [(sampleGabagoolYes, (100 : ℚ),
        (.ok (some "oid-1") : Except String (Option String)))],
      t.1.event.event_id ≠ "ev-untouched") ∧
    get_position_balance
      (run_gabagool_trades [(sampleGabagoolYes, (100 : ℚ),
        (.ok (some "oid-1") : Except String (Option String)))])
      "ev-untouched" = (0, 0, 0, 0) :=
  ⟨by decide,
   C10_get_position_balance_default _ "ev-untouched" (by decide)⟩

/-- The configuration a successful startup produces (`src/main.rs` lines
27-57): the optional Polymarket wallet key, the two Kalshi credentials and
the warnings logged along the way. -/
structure StartupConfig where
  polymarket_wallet_key : Option String
  kalshi_api_key : String
  kalshi_api_secret : String
  warnings : List String
deriving Repr, DecidableEq

/-- The credential-handling head of `main` (`src/main.rs` lines 27-57), as
a function of the relevant environment variables (`none` = variable
absent). The Polymarket wallet key is optional: its absence only logs a
warning that trading will fail. The Kalshi key and secret default to the
empty string with a warning, and startup returns the fatal
"Missing Kalshi API credentials" error when either is empty; otherwise
startup proceeds with the gathered configuration. -/
def startup (polymarket_wallet_private_key kalshi_api_key_env
    kalshi_api_secret_env : Option String) : Except String StartupConfig :=
  let wallet_key := polymarket_wallet_private_key
  let warnings :=
    (if wallet_key.isNone then
      ["POLYMARKET_WALLET_PRIVATE_KEY not set - trading will fail!"]
     else []) ++
    (if kalshi_api_key_env.isNone then
      ["KALSHI_API_KEY not set - Kalshi API calls will fail!"]
     else []) ++
    (if kalshi_api_secret_env.isNone then
      ["KALSHI_API_SECRET not set - Kalshi API calls will fail!"]
     else [])
  let kalshi_api_key := kalshi_api_key_env.getD ""
  let kalshi_api_secret := kalshi_api_secret_env.getD ""
  if kalshi_api_key = "" ∨ kalshi_api_secret = "" then
    .error "Missing Kalshi API credentials"
  else
    .ok ⟨wallet_key, kalshi_api_key, kalshi_api_secret, warnings⟩

/-- The credential gate at the top of `PolymarketClient::place_order`
(`src/clients.rs` lines 315-326): with no wallet private key configured
every order attempt fails before any network call — the reduced,
trade-disabled mode. -/
def polymarket_place_order_gate (wallet_private_key : Option String) :
    Except String Unit :=
  match wallet_private_key with
  | none => .error
      "Polymarket wallet private key not configured. Set POLYMARKET_WALLET_PRIVATE_KEY environment variable"
  | some _ => .ok ()

/-- C8: startup fails fatally when the Kalshi API key or secret is absent;
when only the Polymarket wallet key is absent (and the Kalshi credentials
are present and nonempty), startup continues, logs the trading warning,
and every Polymarket order attempt fails at the credential gate. -/
theorem C8_startup_credentials (wallet kk ks : Option String) :
    ((kk = none ∨ ks = none) →
      startup wallet kk ks = .error "Missing Kalshi API credentials") ∧
    (∀ k s, kk = some k → ks = some s → k ≠ "" → s ≠ "" → wallet = none →
      ∃ cfg, startup wallet kk ks = .ok cfg ∧
        cfg.polymarket_wallet_key = none ∧
        "POLYMARKET_WALLET_PRIVATE_KEY not set - trading will fail!" ∈
          cfg.warnings ∧
        polymarket_place_order_gate cfg.polymarket_wallet_key = .error
          "Polymarket wallet private key not configured. Set POLYMARKET_WALLET_PRIVATE_KEY environment variable") := by
  constructor
  · intro h
    unfold startup
    rcases h with h | h <;> subst h
    · have : (none : Option String).getD "" = "" := rfl
      rw [if_pos (Or.inl this)]
    · have : (none : Option String).getD "" = "" := rfl
      rw [if_pos (Or.inr this)]
  · rintro k s rfl rfl hk hs rfl
    refine ⟨⟨none, k, s,
        ["POLYMARKET_WALLET_PRIVATE_KEY not set - trading will fail!"]⟩,
      ?_, rfl, List.mem_singleton.mpr rfl, rfl⟩
    simp [startup, hk, hs]

/-- Witness for C8: with both Kalshi variables unset startup raises the
fatal error; with Kalshi credentials set and only the wallet key unset,
startup succeeds in the trade-disabled mode with the warning logged. -/
theorem C8_startup_credentials_witness :
    startup none none none = .error "Missing Kalshi API credentials" ∧
    ∃ cfg, startup none (some "kk-1") (some "ks-1") = .ok cfg ∧
      cfg.polymarket_wallet_key = none ∧
      "POLYMARKET_WALLET_PRIVATE_KEY not set - trading will fail!" ∈
        cfg.warnings ∧
      polymarket_place_order_gate cfg.polymarket_wallet_key = .error
        "Polymarket wallet private key not configured. Set POLYMARKET_WALLET_PRIVATE_KEY environment variable" :=
  ⟨(C8_startup_credentials none none none).1 (Or.inl rfl),
   (C8_startup_credentials none (some "kk-1") (some "ks-1")).2 "kk-1" "ks-1"
     rfl rfl (by decide) (by decide) rfl⟩

/-- Modelled from the spec: candidate generation of
`EventMatcher::find_matches` (`event_matcher.rs` is referenced by `bot.rs`
but is not among the source files). Following §4.2 and §9: the
text-similarity function is pluggable (`sim`); every cross pair scoring at
least the threshold is a candidate. -/
def gather_candidates (sim : Event → Event → ℚ) (threshold : ℚ)
    (listA listB : List Event) : List (Event × Event × ℚ) :=
  listA.flatMap fun a =>
    listB.filterMap fun b =>
      let s := sim a b
      if threshold ≤ s then some (a, b, s) else none

/-- Modelled from the spec (§4.2): a candidate pair may be accepted only
when neither of its events has already been consumed — by event id — by a
previously accepted pair in the same pass. -/
def accept_pair (accepted : List (Event × Event × ℚ))
    (c : Event × Event × ℚ) : Bool :=
  accepted.all fun p =>
    p.1.event_id != c.1.event_id && p.2.1.event_id != c.2.1.event_id

/-- Modelled from the spec (§4.2): the greedy one-to-one pass over the
ranked candidates, keeping acceptance order. -/
def greedy_one_to_one (candidates : List (Event × Event × ℚ)) :
    List (Event × Event × ℚ) :=
  candidates.foldl
    (fun accepted c =>
      if accept_pair accepted c then accepted ++ [c] else accepted) []

/-- Modelled from the spec: `EventMatcher::find_matches` following §4.2 —
candidates at or above the similarity threshold, ranked by descending
score, then matched one-to-one greedily (highest-scoring candidate wins;
the ranking is stable, keeping the deterministic input order among equal
scores). -/
def find_matches (sim : Event → Event → ℚ) (threshold : ℚ)
    (listA listB : List Event) : List (Event × Event × ℚ) :=
  greedy_one_to_one
    ((gather_candidates sim threshold listA listB).mergeSort
      fun c d => decide (d.2.2 ≤ c.2.2))

/-- The one-to-one invariant: two pairs never share the A-side event id
nor the B-side event id. -/
def DistinctSides (p q : Event × Event × ℚ) : Prop :=
  p.1.event_id ≠ q.1.event_id ∧ p.2.1.event_id ≠ q.2.1.event_id

/-- The greedy pass preserves pairwise side-distinctness of the accepted
list, whatever candidates remain. -/
lemma greedy_preserves_distinct (cands : List (Event × Event × ℚ))
    (accepted : List (Event × Event × ℚ))
    (hacc : accepted.Pairwise DistinctSides) :
    (cands.foldl
      (fun accepted c =>
        if accept_pair accepted c then accepted ++ [c] else accepted)
      accepted).Pairwise DistinctSides := by
  induction cands generalizing accepted with
  | nil => exact hacc
  | cons c rest ih =>
    rw [List.foldl_cons]
    by_cases hc : accept_pair accepted c = true
    · rw [if_pos hc]
      refine ih _ ?_
      rw [List.pairwise_append]
      refine ⟨hacc, List.pairwise_singleton _ _, ?_⟩
      intro a ha b hb
      rw [List.mem_singleton] at hb
      subst hb
      have hone := List.all_eq_true.mp hc a ha
      rw [Bool.and_eq_true, bne_iff_ne, bne_iff_ne] at hone
      exact hone
    · rw [if_neg hc]
      exact ih _ hacc

/-- C6: for every similarity function, threshold and pair of input lists,
the matcher's output never contains two pairs sharing the same event —
by event id — on either side: matching is one-to-one within a pass. -/
theorem C6_find_matches_one_to_one (sim : Event → Event → ℚ)
    (threshold : ℚ) (listA listB : List Event) :
    (find_matches sim threshold listA listB).Pairwise DistinctSides := by
  unfold find_matches greedy_one_to_one
  exact greedy_preserves_distinct _ [] (List.Pairwise.nil)

end ArbBot
